import Mathlib

/-!
Shallow embedding of the go-torrent client (github.com/piyushgupta53/go-torrent)
in Lean 4, together with theorems settling the specification claims about its
bencode codec, wire messages, piece scheduler, descriptor parser, tracker
response parser and bitfield.

Conventions of the embedding:
  * Go byte strings / `[]byte` are `List Nat` (each element a byte value).
  * Go `int64` / `int` are `Int`; Go `uint32` casts are taken modulo `2 ^ 32`.
  * Go maps are association lists; `map[int]bool` sets are lists of indices.
  * Fallible Go functions return `Except`; a Go runtime panic is modelled as
    `Option.none` (or a dedicated error constructor) where it can occur.
  * The recursive bencode decoder is expressed with an explicit fuel
    parameter; `Decode` supplies `input.length + 1` fuel, which is ample for
    every input considered here (the Go recursion consumes at least one byte
    per nesting level).  The `fuelOut` error is an artifact of the embedding
    and is never produced in any theorem below.
-/

namespace GoTorrent

/-- Byte values of an ASCII string, used to transcribe the Go string
literals appearing in the source. -/
def ascii (s : String) : List Nat := s.data.map Char.toNat

/-- Big-endian 4-byte encoding, mirroring `binary.BigEndian.PutUint32`
(the value is implicitly reduced modulo `2 ^ 32` bytewise). -/
def be32 (n : Nat) : List Nat :=
  [n / 2 ^ 24 % 256, n / 2 ^ 16 % 256, n / 2 ^ 8 % 256, n % 256]

/-- Go's `uint32(x)` conversion of a (possibly negative) `int`:
two's-complement truncation to 32 bits. -/
def u32 (i : Int) : Nat := (i % (2 ^ 32 : Int)).toNat

namespace Bencode

/-- Go dynamic values flowing through `internal/bencode`: the decoder
produces `str` (Go `string`), `int64`, `list` (`[]any`) and `dict`
(`map[string]any`, modelled as an association list with unique keys).
`goInt` mirrors Go's distinct `int` type, which never comes out of the
decoder but is asserted for by the tracker response parser. -/
inductive GoVal where
  | str (s : List Nat)
  | int64 (n : Int)
  | goInt (n : Int)
  | list (l : List GoVal)
  | dict (d : List (List Nat × GoVal))

/-- Decoder errors of `internal/bencode/decoder.go`.  `eof` stands for the
`io` read errors of `Peek`/`ReadByte`/`ReadFull` on exhausted input;
`atoiErr` for a failing `strconv.Atoi` in `decodeString`; `intParseErr`
for the wrapped `strconv.ParseInt` failure in `decodeInteger`; `panicked`
for the runtime panic of `make([]byte, n)` with negative `n`; `fuelOut`
is the fuel artifact described in the file header. -/
inductive DecErr where
  | invalidBencode
  | integerFormat
  | eof
  | atoiErr
  | intParseErr
  | panicked
  | fuelOut
deriving DecidableEq

/-- Mirror of `readUntil`: consume bytes up to (and including) the first
occurrence of `delim`, returning the bytes before it and the rest. -/
def readUntil (delim : Nat) : List Nat → Except DecErr (List Nat × List Nat)
  | [] => .error .eof
  | b :: bs =>
    if b = delim then .ok ([], bs)
    else
      match readUntil delim bs with
      | .ok (res, rest) => .ok (b :: res, rest)
      | .error e => .error e

/-- Mirror of `io.ReadFull`: read exactly `n` bytes or fail. -/
def readFull (input : List Nat) (n : Nat) : Except DecErr (List Nat × List Nat) :=
  if n ≤ input.length then .ok (input.take n, input.drop n) else .error .eof

/-- Numeric value of an ASCII decimal digit. -/
def digitVal (c : Nat) : Option Nat :=
  if 48 ≤ c ∧ c ≤ 57 then some (c - 48) else none

/-- Value of a non-empty all-digit ASCII string. -/
def digitsVal (l : List Nat) : Option Nat :=
  if l = [] then none
  else
    l.foldl
      (fun acc c =>
        match acc, digitVal c with
        | some a, some d => some (10 * a + d)
        | _, _ => none)
      (some 0)

/-- Model of `strconv.ParseInt(s, 10, 64)` (and of `strconv.Atoi` on a
64-bit platform): optional sign, non-empty digit run, 64-bit range. -/
def parseIntStr (s : List Nat) : Option Int :=
  let signed : Option Int :=
    match s with
    | 43 :: rest => (digitsVal rest).map Int.ofNat
    | 45 :: rest => (digitsVal rest).map (fun n => -(n : Int))
    | _ => (digitsVal s).map Int.ofNat
  match signed with
  | some n => if -(2 ^ 63 : Int) ≤ n ∧ n < 2 ^ 63 then some n else none
  | none => none

/-- Mirror of `decodeString`: read the decimal length up to the colon,
then exactly that many bytes.  (`make([]byte, n)` panics for negative
`n`; this branch is unreachable from `decodeNext` because of the digit
dispatch bug proved below.) -/
def decodeString (input : List Nat) : Except DecErr (List Nat × List Nat) :=
  match readUntil 58 input with
  | .error e => .error e
  | .ok (lengthStr, rest) =>
    match parseIntStr lengthStr with
    | none => .error .atoiErr
    | some length =>
      if length < 0 then .error .panicked
      else readFull rest length.toNat

/-- Mirror of `decodeInteger`: skip the leading `i`, read up to `e`,
reject a leading zero and `-0`, then parse. -/
def decodeInteger (input : List Nat) : Except DecErr (Int × List Nat) :=
  match input with
  | [] => .error .eof
  | _ :: afterI =>
    match readUntil 101 afterI with
    | .error e => .error e
    | .ok (numStr, rest) =>
      if 1 < numStr.length ∧ numStr.head? = some 48 then .error .integerFormat
      else if 1 < numStr.length ∧ numStr.take 2 = [45, 48] then .error .integerFormat
      else
        match parseIntStr numStr with
        | none => .error .intParseErr
        | some n => .ok (n, rest)

/-- Map-style insertion into the association list modelling
`map[string]any`: a present key is overwritten in place. -/
def dictSet (d : List (List Nat × GoVal)) (k : List Nat) (v : GoVal) :
    List (List Nat × GoVal) :=
  match d with
  | [] => [(k, v)]
  | (k', v') :: rest => if k' = k then (k, v) :: rest else (k', v') :: dictSet rest k v

mutual

/-- Mirror of `decodeNext`: peek the first byte and dispatch on it.  The
digit test is transcribed exactly as in the source, `b[0] >= '0' && b[0]
<= 9`, i.e. the upper bound is the numeric value `9`, not the ASCII code
`'9'` (57) — so the string branch is unreachable. -/
def decodeNext : Nat → List Nat → Except DecErr (GoVal × List Nat)
  | 0, _ => .error .fuelOut
  | fuel + 1, input =>
    match input with
    | [] => .error .eof
    | b :: rest =>
      if 48 ≤ b ∧ b ≤ 9 then
        match decodeString (b :: rest) with
        | .ok (s, r) => .ok (.str s, r)
        | .error e => .error e
      else if b = 105 then
        match decodeInteger (b :: rest) with
        | .ok (n, r) => .ok (.int64 n, r)
        | .error e => .error e
      else if b = 108 then
        decodeListLoop fuel [] rest
      else if b = 100 then
        decodeDictLoop fuel [] rest
      else .error .invalidBencode
termination_by fuel input => (fuel, 0)

/-- Mirror of the loop body of `decodeList` (the leading `l` has already
been consumed by the caller): peek, stop at `e`, otherwise decode the
next element and continue. -/
def decodeListLoop : Nat → List GoVal → List Nat → Except DecErr (GoVal × List Nat)
  | _, _, [] => .error .eof
  | fuel, acc, b :: rest =>
    if b = 101 then .ok (.list acc, rest)
    else
      match fuel with
      | 0 => .error .fuelOut
      | f + 1 =>
        match decodeNext (f + 1) (b :: rest) with
        | .error e => .error e
        | .ok (item, rest') => decodeListLoop f (acc ++ [item]) rest'
termination_by fuel acc input => (fuel, 1)

/-- Mirror of the loop body of `decodeDict`: peek, stop at `e`, otherwise
decode a key (which must be a string), then a value, and store the pair
with Go map overwrite semantics. -/
def decodeDictLoop : Nat → List (List Nat × GoVal) → List Nat →
    Except DecErr (GoVal × List Nat)
  | _, _, [] => .error .eof
  | fuel, acc, b :: rest =>
    if b = 101 then .ok (.dict acc, rest)
    else
      match fuel with
      | 0 => .error .fuelOut
      | f + 1 =>
        match decodeNext (f + 1) (b :: rest) with
        | .error e => .error e
        | .ok (key, rest1) =>
          match key with
          | .str ks =>
            match decodeNext (f + 1) rest1 with
            | .error e => .error e
            | .ok (value, rest2) => decodeDictLoop f (dictSet acc ks value) rest2
          | _ => .error .invalidBencode
termination_by fuel acc input => (fuel, 1)

end

/-- Mirror of `bencode.Decode`: run `decodeNext` on the byte stream and
return the decoded value.  The fuel `input.length + 1` is ample, see the
file header. -/
def Decode (input : List Nat) : Except DecErr GoVal :=
  match decodeNext (input.length + 1) input with
  | .ok (v, _) => .ok v
  | .error e => .error e

/-- ASCII decimal digits of a positive natural number. -/
def natDigits : Nat → List Nat
  | 0 => []
  | n + 1 => natDigits ((n + 1) / 10) ++ [(n + 1) % 10 + 48]
decreasing_by simp_wf; omega

/-- ASCII decimal representation of a natural number (`fmt` `%d`). -/
def natToDecimal (n : Nat) : List Nat :=
  if n = 0 then [48] else natDigits n

/-- ASCII decimal representation of an integer (`fmt` `%d`). -/
def intToDecimal (n : Int) : List Nat :=
  if n < 0 then 45 :: natToDecimal n.natAbs else natToDecimal n.toNat

/-- Mirror of `encodeString`: `<length>:<bytes>`. -/
def encodeStringB (s : List Nat) : List Nat :=
  natToDecimal s.length ++ [58] ++ s

/-- Mirror of `encodeInteger`: `i<digits>e`. -/
def encodeIntegerB (n : Int) : List Nat :=
  [105] ++ intToDecimal n ++ [101]

/-- Strict ascending byte-lexicographic order on byte strings, the order
of `sort.Strings`. -/
def lexLtB : List Nat → List Nat → Bool
  | [], [] => false
  | [], _ :: _ => true
  | _ :: _, [] => false
  | a :: as, b :: bs => if a < b then true else if b < a then false else lexLtB as bs

/-- Insertion step of the key sort used by the dictionary encoder. -/
def insertByKey (p : List Nat × List Nat) :
    List (List Nat × List Nat) → List (List Nat × List Nat)
  | [] => [p]
  | q :: rest => if lexLtB q.1 p.1 then q :: insertByKey p rest else p :: q :: rest

/-- Sort already-encoded dictionary entries into ascending key order,
mirroring the `sort.Strings(keys)` step of `encodeDict`. -/
def sortByKey : List (List Nat × List Nat) → List (List Nat × List Nat)
  | [] => []
  | p :: rest => insertByKey p (sortByKey rest)

/-- Emit the body of an encoded dictionary: entries in ascending key
order, each as `<key string><value bytes>`. -/
def encodeDictBody (entries : List (List Nat × List Nat)) : List Nat :=
  ((sortByKey entries).map (fun p => encodeStringB p.1 ++ p.2)).flatten

mutual

/-- Mirror of `encodeValue`.  Every `GoVal` constructor corresponds to a
type accepted by the Go switch (both `goInt` and `int64` fall into the
integer case), so the Go error branch for unsupported types is
unrepresentable here and the result is total. -/
def encodeValue : GoVal → List Nat
  | .str s => encodeStringB s
  | .int64 n => encodeIntegerB n
  | .goInt n => encodeIntegerB n
  | .list l => [108] ++ encodeItems l ++ [101]
  | .dict d => [100] ++ encodeDictBody (encodeEntries d) ++ [101]

/-- Encode the elements of a list in order (`encodeList` body). -/
def encodeItems : List GoVal → List Nat
  | [] => []
  | v :: rest => encodeValue v ++ encodeItems rest

/-- Encode each dictionary value, keeping its key, prior to the key sort
(`encodeDict` encodes `dict[key]` for each sorted key; for the unique
keys of a map this equals sorting the independently encoded entries). -/
def encodeEntries : List (List Nat × GoVal) → List (List Nat × List Nat)
  | [] => []
  | (k, v) :: rest => (k, encodeValue v) :: encodeEntries rest

end

end Bencode

namespace Peer

/-- Mirror of the `Message` struct of `internal/peer/message.go`
(`ID MessageID` is a `uint8`; `Payload []byte`). -/
structure Message where
  id : Nat
  payload : List Nat
deriving DecidableEq

/-- Mirror of `(*Message).Serialize`.  A `nil` receiver (`none`) is the
keep-alive frame.  Otherwise the source allocates `buf := make([]byte,
1+length)` with `length = 1 + len(payload)` — only `2 + len(payload)`
bytes — writes the 4-byte big-endian length at `buf[0:4]`, the id at
`buf[4]`, and copies the payload into the remaining space, truncating it.
For payloads shorter than 3 bytes the slice accesses panic (`none`). -/
def serializeMessage (m : Option Message) : Option (List Nat) :=
  match m with
  | none => some [0, 0, 0, 0]
  | some msg =>
    let length := 1 + msg.payload.length
    let bufLen := 1 + length
    if bufLen < 5 then none
    else some (be32 length ++ [msg.id] ++ msg.payload.take (bufLen - 5))

/-- Mirror of `SerializeRequest`: 12 bytes, the big-endian `uint32`
values of index, begin and length. -/
def serializeRequest (index begin length : Int) : List Nat :=
  be32 (u32 index) ++ be32 (u32 begin) ++ be32 (u32 length)

/-- Mirror of the `Bitfield` byte slice. -/
def Bitfield := List Nat

/-- Mirror of `Bitfield.HasPiece`: out-of-range indices answer `false`;
otherwise test bit `7 - index % 8` of byte `index / 8` (big-endian bit
order). -/
def hasPiece (bf : List Nat) (index : Int) : Bool :=
  if index < 0 ∨ (8 * bf.length : Int) ≤ index then false
  else
    let i := index.toNat
    (((bf.getD (i / 8) 0) >>> (7 - i % 8)) &&& 1) != 0

/-- Mirror of `Bitfield.SetPiece`: out-of-range indices leave the
bitfield unchanged; otherwise OR bit `7 - index % 8` into byte
`index / 8`. -/
def setPiece (bf : List Nat) (index : Int) : List Nat :=
  if index < 0 ∨ (8 * bf.length : Int) ≤ index then bf
  else
    let i := index.toNat
    bf.set (i / 8) ((bf.getD (i / 8) 0) ||| (1 <<< (7 - i % 8)))

end Peer

namespace Download

/-- `BlockSize` from `internal/download/piece.go`: 16 KiB. -/
def BlockSize : Nat := 16 * 1024

/-- Mirror of `PieceState`. -/
inductive PieceState where
  | none
  | pending
  | complete
deriving DecidableEq

/-- Mirror of the `Block` struct; `data = Option.none` models the `nil`
slice of a not-yet-downloaded block. -/
structure Block where
  index : Nat
  begin_ : Nat
  length : Nat
  data : Option (List Nat)
deriving DecidableEq

/-- Mirror of the `Piece` struct.  The `Requested map[int]bool` set is
the list of block indices mapped to `true`; the mutex is not modelled. -/
structure Piece where
  index : Nat
  hash : List Nat
  length : Nat
  blocks : List Block
  state : PieceState
  downloaded : Nat
  requested : List Nat
deriving DecidableEq

instance : Inhabited Piece :=
  ⟨{ index := 0, hash := [], length := 0, blocks := [], state := .none,
     downloaded := 0, requested := [] }⟩

/-- Mirror of `NewPiece`: `⌈length / BlockSize⌉` blocks of `BlockSize`
bytes, the final one truncated to `length % BlockSize` when nonzero. -/
def newPiece (index : Nat) (hash : List Nat) (length : Nat) : Piece :=
  let numBlocks := length / BlockSize + (if length % BlockSize ≠ 0 then 1 else 0)
  let blocks := (List.range numBlocks).map (fun i =>
    { index := i
      begin_ := i * BlockSize
      length := if i = numBlocks - 1 ∧ length % BlockSize ≠ 0
                then length % BlockSize else BlockSize
      data := Option.none : Block })
  { index := index, hash := hash, length := length, blocks := blocks,
    state := .none, downloaded := 0, requested := [] }

/-- Mirror of `(*Piece).NextRequest`: find the first block whose `Data`
is non-nil (sic — the source tests `block.Data != nil`) and whose index
is not in the requested set; mark it requested and return it.  The
returned pair is (chosen block, updated piece). -/
def nextRequest (p : Piece) : Option Block × Piece :=
  match p.blocks.find? (fun b => b.data.isSome && !(p.requested.contains b.index)) with
  | some b => (some b, { p with requested := b.index :: p.requested })
  | none => (none, p)

/-- Mirror of `(*Piece).ResetRequests`: empty the requested set and move
a PENDING piece back to NONE (any other state is kept). -/
def resetRequests (p : Piece) : Piece :=
  { p with requested := [],
           state := if p.state = .pending then .none else p.state }

/-- Mirror of the `PieceManager` struct of `internal/download/manager.go`
(the per-piece status maps are index sets; `completed` is the Go `int`
counter, which `ResetPiece` may drive below zero). -/
structure PieceManager where
  pieces : List Piece
  downloadedSet : List Nat
  inProgress : List Nat
  missing : List Nat
  completed : Int
deriving DecidableEq

/-- Add an index to a set-valued map (`m[i] = true`). -/
def setInsert (s : List Nat) (i : Nat) : List Nat :=
  if s.contains i then s else i :: s

/-- Mirror of `(*PieceManager).ResetPiece`: for an in-range index, call
`ResetRequests` on the piece, drop it from the in-progress map, put it
back in the missing map, decrement `completed` if the piece still shows
COMPLETE after `ResetRequests`, and finally force its state to NONE.
Block data and the `downloaded` counter of the piece are not touched. -/
def resetPiece (pm : PieceManager) (pieceIndex : Int) : PieceManager :=
  if pieceIndex < 0 ∨ (pm.pieces.length : Int) ≤ pieceIndex then pm
  else
    let i := pieceIndex.toNat
    let piece := pm.pieces.getD i default
    let p1 := resetRequests piece
    let completed' := if p1.state = .complete then pm.completed - 1 else pm.completed
    let p2 := { p1 with state := PieceState.none }
    { pm with pieces := pm.pieces.set i p2,
              inProgress := pm.inProgress.erase i,
              missing := setInsert pm.missing i,
              completed := completed' }

/-- Mirror of `(*DownloadManager).requestNextBlock`: take the next block
from `NextRequest`; when it is `nil`, return without issuing anything,
otherwise issue `(piece.Index, block.Begin, block.Length)` on the
session.  The issued request (if any) is returned alongside the updated
piece. -/
def requestNextBlock (p : Piece) : Option (Nat × Nat × Nat) × Piece :=
  match nextRequest p with
  | (Option.none, p1) => (Option.none, p1)
  | (some b, p1) => (some (p.index, b.begin_, b.length), p1)

end Download


namespace Torrent

open Bencode

/-- Mirror of the `FileDict` struct. -/
structure FileDict where
  length : Int
  path : List (List Nat)
deriving DecidableEq

/-- Mirror of the `InfoDict` struct. -/
structure InfoDict where
  pieceLength : Int
  pieces : List Nat
  priv : Bool
  name : List Nat
  length : Int
  files : List FileDict
  isDirectory : Bool
deriving DecidableEq

/-- Mirror of the `TorrentFile` struct (`CreationDate time.Time` is kept
as the Unix seconds it is built from). -/
structure TorrentFile where
  announce : List Nat
  annouceList : List (List (List Nat))
  creationDate : Int
  comment : List Nat
  createdBy : List Nat
  encoding : List Nat
  info : InfoDict
  infoHash : List Nat
  piecesHash : List (List Nat)
deriving DecidableEq

/-- Go map lookup on the association-list dictionaries. -/
def dictGet (d : List (List Nat × GoVal)) (k : List Nat) : Option GoVal :=
  (d.find? (fun p => p.1 == k)).map (fun p => p.2)

/-- Errors of `internal/torrent/file.go`, one constructor per
`fmt.Errorf` site of `Parse` / `parseInfoDict`. -/
inductive ParseErr where
  | notDict
  | missingAnnouce
  | announceNotString
  | announceListNotList
  | tierNotList
  | trackerUrlNotString
  | creationDateNotInt
  | commentNotString
  | createdByNotString
  | encodingNotString
  | missingInfo
  | infoNotDict
  | hashError
  | missingPieceLength
  | pieceLengthNotInt
  | missingPieces
  | piecesNotString
  | privateNotInt
  | missingName
  | nameNotString
  | lengthNotInt
  | filesNotList
  | fileNotDict
  | missingFileLength
  | fileLengthNotInt
  | missingFilePath
  | filePathNotList
  | pathElemNotString
deriving DecidableEq

/-- Mirror of the `annouce-list` block of `Parse` (the key is misspelled
in the source): absent key yields the empty list, otherwise a list of
tiers, each a list of tracker URL strings. -/
def parseAnnounceList (dict : List (List Nat × GoVal)) :
    Except ParseErr (List (List (List Nat))) :=
  match dictGet dict (ascii ("annouce-list")) with
  | Option.none => .ok []
  | some (.list tiers) =>
    tiers.foldr
      (fun tier acc => do
        let rest ← acc
        match tier with
        | .list tl => do
          let strs ← tl.foldr
            (fun tracker tacc => do
              let trest ← tacc
              match tracker with
              | .str u => Except.ok (u :: trest)
              | _ => Except.error ParseErr.trackerUrlNotString)
            (Except.ok [])
          Except.ok (strs :: rest)
        | _ => Except.error ParseErr.tierNotList)
      (Except.ok [])
  | some _ => .error .announceListNotList

/-- Mirror of an optional string field of `Parse` (comment, created by,
encoding): absent means the zero value, a non-string value is an error. -/
def parseOptString (dict : List (List Nat × GoVal)) (key : List Nat)
    (e : ParseErr) : Except ParseErr (List Nat) :=
  match dictGet dict key with
  | Option.none => .ok []
  | some (.str s) => .ok s
  | some _ => .error e

/-- Mirror of the `files` block of `parseInfoDict`. -/
def parseFiles (files : List GoVal) : Except ParseErr (List FileDict) :=
  files.foldr
    (fun fileVal acc => do
      let rest ← acc
      match fileVal with
      | .dict fd => do
        let flen ← match dictGet fd (ascii ("length")) with
          | Option.none => Except.error ParseErr.missingFileLength
          | some (.int64 n) => Except.ok n
          | some _ => Except.error ParseErr.fileLengthNotInt
        let fpath ← match dictGet fd (ascii ("path")) with
          | Option.none => Except.error ParseErr.missingFilePath
          | some (.list pl) =>
            pl.foldr
              (fun pe pacc => do
                let prest ← pacc
                match pe with
                | .str s => Except.ok (s :: prest)
                | _ => Except.error ParseErr.pathElemNotString)
              (Except.ok [])
          | some _ => Except.error ParseErr.filePathNotList
        Except.ok ({ length := flen, path := fpath : FileDict } :: rest)
      | _ => Except.error ParseErr.fileNotDict)
    (Except.ok [])

/-- Mirror of `parseInfoDict`. -/
def parseInfoDict (info : List (List Nat × GoVal)) : Except ParseErr InfoDict := do
  let pieceLength ← match dictGet info (ascii ("piece length")) with
    | Option.none => Except.error ParseErr.missingPieceLength
    | some (.int64 n) => Except.ok n
    | some _ => Except.error ParseErr.pieceLengthNotInt
  let pieces ← match dictGet info (ascii ("pieces")) with
    | Option.none => Except.error ParseErr.missingPieces
    | some (.str s) => Except.ok s
    | some _ => Except.error ParseErr.piecesNotString
  let priv ← match dictGet info (ascii ("private")) with
    | Option.none => Except.ok false
    | some (.int64 n) => Except.ok (n == 1)
    | some _ => Except.error ParseErr.privateNotInt
  let name ← match dictGet info (ascii ("name")) with
    | Option.none => Except.error ParseErr.missingName
    | some (.str s) => Except.ok s
    | some _ => Except.error ParseErr.nameNotString
  match dictGet info (ascii ("length")) with
  | some lv =>
    match lv with
    | .int64 n =>
      Except.ok { pieceLength := pieceLength, pieces := pieces, priv := priv,
                  name := name, length := n, files := [], isDirectory := false }
    | _ => Except.error ParseErr.lengthNotInt
  | Option.none =>
    match dictGet info (ascii ("files")) with
    | some (.list fl) => do
      let files ← parseFiles fl
      Except.ok { pieceLength := pieceLength, pieces := pieces, priv := priv,
                  name := name, length := 0, files := files, isDirectory := true }
    | some _ => Except.error ParseErr.filesNotList
    | Option.none => Except.error ParseErr.missingInfo

/-- Mirror of `parsePieces`: slice the pieces string into
`len(pieces) / 20` hashes of 20 bytes each (no consistency check of any
kind is performed). -/
def parsePieces (pieces : List Nat) : List (List Nat) :=
  (List.range (pieces.length / 20)).map (fun i => ((pieces.drop (i * 20)).take 20))

/-- Mirror of `Parse`, parameterised by the SHA-1 primitive used inside
`calculateHashInfo` (`crypto/sha1` is Go standard library, not code of
this repository; every theorem below holds for an arbitrary hash
function).  The announce key is looked up under the misspelled name
`annouce`, exactly as in the source. -/
def parse (h : List (List Nat × GoVal) → Option (List Nat)) (data : GoVal) :
    Except ParseErr TorrentFile :=
  match data with
  | .dict dict => do
    let announce ← match dictGet dict (ascii ("annouce")) with
      | Option.none => Except.error ParseErr.missingAnnouce
      | some (.str s) => Except.ok s
      | some _ => Except.error ParseErr.announceNotString
    let alist ← parseAnnounceList dict
    let cdate ← match dictGet dict (ascii ("creation date")) with
      | Option.none => Except.ok 0
      | some (.int64 n) => Except.ok n
      | some _ => Except.error ParseErr.creationDateNotInt
    let comment ← parseOptString dict (ascii ("comment")) .commentNotString
    let createdBy ← parseOptString dict (ascii ("created by")) .createdByNotString
    let encoding ← parseOptString dict (ascii ("encoding")) .encodingNotString
    let infoD ← match dictGet dict (ascii ("info")) with
      | Option.none => Except.error ParseErr.missingInfo
      | some (.dict d) => Except.ok d
      | some _ => Except.error ParseErr.infoNotDict
    let info ← parseInfoDict infoD
    let infoHash ← match h infoD with
      | some ih => Except.ok ih
      | Option.none => Except.error ParseErr.hashError
    Except.ok { announce := announce, annouceList := alist, creationDate := cdate,
                comment := comment, createdBy := createdBy, encoding := encoding,
                info := info, infoHash := infoHash,
                piecesHash := parsePieces info.pieces }
  | _ => .error .notDict

/-- Mirror of `(*TorrentFile).TotalLength`. -/
def totalLength (t : TorrentFile) : Int :=
  if !t.info.isDirectory then t.info.length
  else (t.info.files.map (fun f => f.length)).sum

/-- Mirror of `(*TorrentFile).NumPieces`. -/
def numPieces (t : TorrentFile) : Nat := t.piecesHash.length

/-- Mirror of `(*TorrentFile).PieceSize`: out-of-range indices yield 0,
non-final pieces the piece length, and the final piece the Go remainder
`TotalLength() % PieceLength` (truncated division), or the piece length
when the remainder is zero. -/
def pieceSize (t : TorrentFile) (index : Int) : Int :=
  if index < 0 ∨ (numPieces t : Int) ≤ index then 0
  else if index < (numPieces t : Int) - 1 then t.info.pieceLength
  else
    let lastPieceSize := Int.tmod (totalLength t) t.info.pieceLength
    if lastPieceSize = 0 then t.info.pieceLength else lastPieceSize

/-- Sum of `PieceSize(i)` over all pieces, the quantity of the spec's
piece-size law. -/
def sumPieceSizes (t : TorrentFile) : Int :=
  ((List.range (numPieces t)).map (fun i : Nat => pieceSize t (i : Int))).sum

end Torrent


namespace Tracker

open Bencode

/-- Go map lookup on the association-list dictionaries (tracker side). -/
def dictGetT (d : List (List Nat × GoVal)) (k : List Nat) : Option GoVal :=
  (d.find? (fun p => p.1 == k)).map (fun p => p.2)

/-- Mirror of the tracker `Peer` struct (`ID [20]byte`, `IP net.IP` as
its byte slice, `Port int`). -/
structure PeerRec where
  id : List Nat
  ip : List Nat
  port : Int
deriving DecidableEq

/-- Mirror of the `AnnounceResponse` struct.  Note the source never
assigns `Incomplete`; it keeps its zero value. -/
structure AnnounceResponse where
  interval : Int
  peers : List PeerRec
  complete : Int
  incomplete : Int
deriving DecidableEq

/-- Errors of `internal/tracker/announce.go`, one constructor per error
return of `parseAnnounceResponse` and its helpers. -/
inductive AnnErr where
  | notDict
  | invalidFailureReason
  | trackerFailure (reason : List Nat)
  | invalidInterval
  | invalidComplete
  | compactPeersLength
  | invalidPeersFormat
  | peerNotDict
  | invalidPeerId
  | invalidPeerIp
  | missingPeerPort
  | invalidPeerPort
deriving DecidableEq

/-- Mirror of `parseCompactPeers`: the byte string must be a multiple of
6 bytes; each group is 4 IPv4 bytes then a big-endian 16-bit port. -/
def parseCompactPeers (data : List Nat) : Except AnnErr (List PeerRec) :=
  if data.length % 6 ≠ 0 then .error .compactPeersLength
  else
    .ok ((List.range (data.length / 6)).map (fun i =>
      { id := List.replicate 20 0
        ip := (data.drop (6 * i)).take 4
        port := ((data.getD (6 * i + 4) 0) * 256 + data.getD (6 * i + 5) 0 : Nat) }))

/-- Mirror of `parseNonCompactPeers`, parameterised by `net.ParseIP`
(Go standard library; `Option.none` models its `nil` failure result).
The optional `peer id` string is copied into the 20-byte array
(truncated or zero-padded as `copy` does); `ip` must be a string the IP
parser accepts; `port` must be an `int64`. -/
def parseNonCompactPeers (parseIPFn : List Nat → Option (List Nat))
    (data : List GoVal) : Except AnnErr (List PeerRec) :=
  data.foldr
    (fun peerData acc => do
      let rest ← acc
      match peerData with
      | .dict pd => do
        let pid ← match dictGetT pd (ascii ("peer id")) with
          | Option.none => Except.ok (List.replicate 20 0)
          | some (.str s) => Except.ok (s.take 20 ++ List.replicate (20 - s.length) 0)
          | some _ => Except.error AnnErr.invalidPeerId
        let ip ← match dictGetT pd (ascii ("ip")) with
          | some (.str s) =>
            match parseIPFn s with
            | some bytes => Except.ok bytes
            | Option.none => Except.error AnnErr.invalidPeerIp
          | _ => Except.error AnnErr.invalidPeerIp
        let port ← match dictGetT pd (ascii ("port")) with
          | Option.none => Except.error AnnErr.missingPeerPort
          | some (.int64 n) => Except.ok n
          | some _ => Except.error AnnErr.invalidPeerPort
        Except.ok ({ id := pid, ip := ip, port := port : PeerRec } :: rest)
      | _ => Except.error AnnErr.peerNotDict)
    (Except.ok [])

/-- Mirror of the post-decode body of `parseAnnounceResponse` (the
function first runs `bencode.Decode` on the raw bytes; this definition
takes the decoded value).  A present `failure reason` string fails with
that message.  The `interval` and `complete` fields are read through the
type assertion `.(int)` — Go's `int`, not the `int64` the decoder
produces — transcribed here as matching only the `goInt` constructor. -/
def parseAnnounceResponseVal (parseIPFn : List Nat → Option (List Nat))
    (decoded : GoVal) : Except AnnErr AnnounceResponse :=
  match decoded with
  | .dict dict => do
    match dictGetT dict (ascii ("failure reason")) with
    | some fr =>
      match fr with
      | .str reason => Except.error (AnnErr.trackerFailure reason)
      | _ => Except.error AnnErr.invalidFailureReason
    | Option.none => do
      let interval ← match dictGetT dict (ascii ("interval")) with
        | Option.none => Except.ok (0 : Int)
        | some (.goInt n) => Except.ok n
        | some _ => Except.error AnnErr.invalidInterval
      let complete ← match dictGetT dict (ascii ("complete")) with
        | Option.none => Except.ok (0 : Int)
        | some (.goInt n) => Except.ok n
        | some _ => Except.error AnnErr.invalidComplete
      let peers ← match dictGetT dict (ascii ("peers")) with
        | Option.none => Except.ok []
        | some (.str s) => parseCompactPeers s
        | some (.list l) => parseNonCompactPeers parseIPFn l
        | some _ => Except.error AnnErr.invalidPeersFormat
      Except.ok { interval := interval, peers := peers, complete := complete,
                  incomplete := 0 }
  | _ => .error .notDict

end Tracker


/-! ## Theorems settling the claims -/

section BitfieldLemmas

/-- The bit test used by `hasPiece` is `Nat.testBit`. -/
theorem shiftAnd_eq_testBit (x s : Nat) : (((x >>> s) &&& 1) != 0) = x.testBit s := by
  unfold Nat.testBit
  rw [Nat.and_comm]

/-- Reading an updated list at the updated (in-range) position. -/
theorem getD_set_self (bf : List Nat) (k v : Nat) (hk : k < bf.length) :
    (bf.set k v).getD k 0 = v := by
  simp [List.getD_eq_getElem?_getD, List.getElem?_set_self, hk]

/-- Reading an updated list at any other position. -/
theorem getD_set_ne (bf : List Nat) (k v j : Nat) (h : j ≠ k) :
    (bf.set k v).getD j 0 = bf.getD j 0 := by
  simp [List.getD_eq_getElem?_getD, List.getElem?_set_ne (fun he => h he.symm)]

end BitfieldLemmas

/-- Claim C10: `HasPiece` and `SetPiece` are total over all integer
indices.  A negative index or one at least `8 * len(bf)` makes
`HasPiece` answer `false` and makes `SetPiece` the identity; for an
in-range index `i`, `HasPiece(SetPiece(b, i), i)` is `true` and
`SetPiece` changes the answer of `HasPiece` at no other index. -/
theorem bitfield_total (bf : List Nat) (index : Int) :
    ((index < 0 ∨ (8 * bf.length : Int) ≤ index) →
      Peer.hasPiece bf index = false ∧ Peer.setPiece bf index = bf) ∧
    (0 ≤ index → index < (8 * bf.length : Int) →
      (Peer.setPiece bf index).length = bf.length ∧
      Peer.hasPiece (Peer.setPiece bf index) index = true ∧
      ∀ j : Int, j ≠ index →
        Peer.hasPiece (Peer.setPiece bf index) j = Peer.hasPiece bf j) := by
  constructor
  · intro h
    rw [Peer.hasPiece, Peer.setPiece, if_pos h, if_pos h]
    exact ⟨rfl, rfl⟩
  · intro h0 hlt
    have hrange : ¬ (index < 0 ∨ (8 * bf.length : Int) ≤ index) := by omega
    have hiNat : index.toNat < 8 * bf.length := by omega
    have hbyte : index.toNat / 8 < bf.length := by omega
    have hsetP : Peer.setPiece bf index =
        bf.set (index.toNat / 8)
          ((bf.getD (index.toNat / 8) 0) ||| (1 <<< (7 - index.toNat % 8))) := by
      simp only [Peer.setPiece, if_neg hrange]
    have hlen : (Peer.setPiece bf index).length = bf.length := by
      rw [hsetP, List.length_set]
    refine ⟨hlen, ?_, ?_⟩
    · simp only [Peer.hasPiece, hsetP, List.length_set, if_neg hrange]
      rw [getD_set_self _ _ _ hbyte, Nat.shiftLeft_eq, one_mul,
        shiftAnd_eq_testBit, Nat.testBit_or, Nat.testBit_two_pow_self,
        Bool.or_true]
    · intro j hj
      by_cases hjr : j < 0 ∨ (8 * bf.length : Int) ≤ j
      · simp only [Peer.hasPiece, hsetP, List.length_set, if_pos hjr]
      · have hj0 : 0 ≤ j := by omega
        have hjNat : j.toNat < 8 * bf.length := by omega
        have hne : j.toNat ≠ index.toNat := by omega
        simp only [Peer.hasPiece, hsetP, List.length_set, if_neg hjr]
        by_cases hb : j.toNat / 8 = index.toNat / 8
        · have hbit : 7 - j.toNat % 8 ≠ 7 - index.toNat % 8 := by omega
          rw [hb, getD_set_self _ _ _ hbyte, Nat.shiftLeft_eq, one_mul,
            shiftAnd_eq_testBit, shiftAnd_eq_testBit, Nat.testBit_or,
            Nat.testBit_two_pow_of_ne (fun he => hbit he.symm), Bool.or_false]
        · rw [getD_set_ne _ _ _ _ hb]

/-- Witness for C10 at a concrete bitfield: applying the theorem to the
3-byte bitfield of the repository test at index 3 (in range) and at
index 24 (out of range). -/
theorem bitfield_total_witness :
    Peer.hasPiece (Peer.setPiece [0, 0, 0] 3) 3 = true ∧
    Peer.hasPiece (Peer.setPiece [0, 0, 0] 3) 5 = Peer.hasPiece [0, 0, 0] 5 ∧
    Peer.hasPiece [0, 0, 0] 24 = false ∧ Peer.setPiece [0, 0, 0] 24 = [0, 0, 0] := by
  refine ⟨((bitfield_total [0, 0, 0] 3).2 (by decide) (by decide)).2.1,
    ((bitfield_total [0, 0, 0] 3).2 (by decide) (by decide)).2.2 5 (by decide),
    ((bitfield_total [0, 0, 0] 24).1 (by decide)).1,
    ((bitfield_total [0, 0, 0] 24).1 (by decide)).2⟩


section DecoderDispatch

open Bencode

/-- Helper: `decodeNext` on any input whose first byte is an ASCII digit
takes the default branch, because the transcribed source condition
`48 ≤ b ∧ b ≤ 9` is unsatisfiable for `b ≥ 48`. -/
theorem decodeNext_digit_head (fuel b : Nat) (bs : List Nat)
    (h1 : 48 ≤ b) (h2 : b ≤ 57) :
    decodeNext (fuel + 1) (b :: bs) = Except.error DecErr.invalidBencode := by
  have hnd : ¬ (48 ≤ b ∧ b ≤ 9) := by omega
  have h105 : ¬ b = 105 := by omega
  have h108 : ¬ b = 108 := by omega
  have h100 : ¬ b = 100 := by omega
  simp only [decodeNext, if_neg hnd, if_neg h105, if_neg h108, if_neg h100]

end DecoderDispatch

/-- Claim C1 (refuted by the code, a code bug): the spec requires every
well-formed byte-string input `<length>:<bytes>` to be dispatched to the
string decoder and decoded to its bytes.  Instead, for EVERY input whose
first byte is an ASCII digit (`'0'` = 48 … `'9'` = 57) — which includes
every well-formed byte-string input — `Decode` returns the
invalid-format error, because `decodeNext` compares the byte with the
numeric value 9 instead of the ASCII code `'9'`.  The repository's own
decoder tests expect `4:spam` to decode to `spam`. -/
theorem decode_string_input_rejected (b : Nat) (bs : List Nat)
    (h1 : 48 ≤ b) (h2 : b ≤ 57) :
    Bencode.Decode (b :: bs) = Except.error Bencode.DecErr.invalidBencode := by
  have h := decodeNext_digit_head (b :: bs).length b bs h1 h2
  simp only [Bencode.Decode, h]

/-- Witness for C1 at the concrete input `4:spam` (bytes 52, 58, 115,
112, 97, 109). -/
theorem decode_string_input_rejected_witness :
    48 ≤ 52 ∧ 52 ≤ 57 ∧
    Bencode.Decode [52, 58, 115, 112, 97, 109] =
      Except.error Bencode.DecErr.invalidBencode :=
  ⟨by decide, by decide,
    decode_string_input_rejected 52 [58, 115, 112, 97, 109] (by decide) (by decide)⟩

/-- Claim C2 (refuted by the code, a code bug): the round trip
`decode(encode(v)) = v` fails already for the byte-string value `spam`:
the canonical encoder produces `4:spam`, and `Decode` rejects it with
the invalid-format error (the digit-dispatch bug of C1), so no value
containing a byte string round-trips.  Consequently `encode(decode(b))
= b` also fails for the canonical input `b = 4:spam`. -/
theorem bencode_roundtrip_fails :
    Bencode.encodeValue (Bencode.GoVal.str [115, 112, 97, 109]) =
      [52, 58, 115, 112, 97, 109] ∧
    Bencode.Decode (Bencode.encodeValue (Bencode.GoVal.str [115, 112, 97, 109])) =
      Except.error Bencode.DecErr.invalidBencode := by
  have henc : Bencode.encodeValue (Bencode.GoVal.str [115, 112, 97, 109]) =
      [52, 58, 115, 112, 97, 109] := by
    simp [Bencode.encodeValue, Bencode.encodeStringB, Bencode.natToDecimal,
      Bencode.natDigits]
  refine ⟨henc, ?_⟩
  rw [henc]
  have h := decodeNext_digit_head 6 52 [58, 115, 112, 97, 109] (by decide) (by decide)
  simp only [Bencode.Decode, List.length_cons, List.length_nil, h]

/-- Claim C3 (refuted by the code, a code bug): `Serialize` is required
to emit `4 + 1 + len(payload)` bytes, and `serialize(request(0, 0,
16384))` the 17-byte frame `00 00 00 0D 06 00 00 00 00 00 00 00 00 00
00 40 00`.  The source allocates `make([]byte, 1+length)` instead of
`4+length` bytes, so the emitted frame has `2 + len(payload)` bytes: for
the request message it is the 14-byte truncated frame below (the last
three payload bytes, including `40 00`, are cut off).  The repository's
own `TestMessage` expects the 17-byte frame. -/
theorem serialize_request_truncated :
    Peer.serializeRequest 0 0 16384 =
      [0, 0, 0, 0, 0, 0, 0, 0, 0, 0, 64, 0] ∧
    Peer.serializeMessage (some { id := 6, payload := Peer.serializeRequest 0 0 16384 }) =
      some [0, 0, 0, 13, 6, 0, 0, 0, 0, 0, 0, 0, 0, 0] ∧
    some [0, 0, 0, 13, 6, 0, 0, 0, 0, 0, 0, 0, 0, 0] ≠
      some [0, 0, 0, 13, 6, 0, 0, 0, 0, 0, 0, 0, 0, 0, 0, 64, 0] := by
  refine ⟨by decide, by decide, by decide⟩


/-- Claim C4 (refuted by the code, a code bug): on a piece newly
selected for download — no block has data installed — the spec requires
`NextRequest` to return the block with `Begin = 0`, so that
`requestNextBlock` issues the first request.  Because the source tests
`block.Data != nil` where it needs `== nil`, `NextRequest` returns `nil`
on every piece without installed data (whatever the requested set), and
`requestNextBlock` issues nothing.  This also contradicts the function's
own doc comment ("returns the next block to request, or nil if all
blocks are requested"). -/
theorem nextRequest_fresh_piece_issues_nothing (p : Download.Piece)
    (h : ∀ b ∈ p.blocks, b.data = Option.none) :
    (Download.nextRequest p).1 = Option.none ∧
    (Download.requestNextBlock p).1 = Option.none := by
  have hfind : p.blocks.find?
      (fun b => b.data.isSome && !(p.requested.contains b.index)) = Option.none := by
    rw [List.find?_eq_none]
    intro b hb
    simp [h b hb]
  refine ⟨?_, ?_⟩
  · simp only [Download.nextRequest, hfind]
  · simp only [Download.requestNextBlock, Download.nextRequest, hfind]

/-- Witness for C4 at a freshly constructed two-block piece
(`NewPiece(0, zero-hash, 32768)`): no data is installed, nothing is
requested, and yet no request is issued. -/
theorem nextRequest_fresh_piece_issues_nothing_witness :
    (∀ b ∈ (Download.newPiece 0 (List.replicate 20 0) 32768).blocks,
      b.data = Option.none) ∧
    (Download.newPiece 0 (List.replicate 20 0) 32768).requested = [] ∧
    (Download.nextRequest (Download.newPiece 0 (List.replicate 20 0) 32768)).1 =
      Option.none ∧
    (Download.requestNextBlock (Download.newPiece 0 (List.replicate 20 0) 32768)).1 =
      Option.none :=
  ⟨by decide, by decide,
    (nextRequest_fresh_piece_issues_nothing _ (by decide)).1,
    (nextRequest_fresh_piece_issues_nothing _ (by decide)).2⟩

/-- A piece whose single 32-byte block is fully installed (bytes of
value 7) but whose expected hash is the zero hash, i.e. SHA-1
verification of the assembled data fails: the scenario of the C5
recovery path. -/
def failedPiece : Download.Piece :=
  { index := 0, hash := List.replicate 20 0, length := 32,
    blocks := [{ index := 0, begin_ := 0, length := 32,
                 data := some (List.replicate 32 7) }],
    state := .pending, downloaded := 32, requested := [0] }

/-- The piece manager holding `failedPiece` as in-progress piece 0. -/
def failedManager : Download.PieceManager :=
  { pieces := [failedPiece], downloadedSet := [], inProgress := [0],
    missing := [], completed := 0 }

/-- Claim C5 (refuted by the code, a code bug): the spec requires the
failed-verification recovery path to reset the piece completely — state
NONE, requested set empty, every block's data cleared, downloaded byte
count 0.  The recovery path (`MarkPieceCompleted` on `Verify` failure,
and `ResetPiece` which the downloader calls) only runs `ResetRequests`:
on the concrete failed piece the requested set and state are indeed
reset, but the installed block data survives and `downloaded` remains 32
instead of returning to 0. -/
theorem resetPiece_keeps_block_data :
    Download.resetPiece failedManager 0 =
      { pieces := [{ index := 0, hash := List.replicate 20 0, length := 32,
                     blocks := [{ index := 0, begin_ := 0, length := 32,
                                  data := some (List.replicate 32 7) }],
                     state := Download.PieceState.none, downloaded := 32,
                     requested := [] }],
        downloadedSet := [], inProgress := [], missing := [0], completed := 0 } ∧
    (Download.resetPiece failedManager 0).pieces.map (fun p => p.downloaded) ≠ [0] ∧
    (Download.resetPiece failedManager 0).pieces.map
        (fun p => p.blocks.map (fun b => b.data)) ≠ [[Option.none]] := by
  refine ⟨by decide, by decide, by decide⟩


/-- A constant stand-in for the SHA-1 primitive of `calculateHashInfo`
(the theorems about `parse` hold for any hash function; this one lets
them be evaluated). -/
def hashConst : List (List Nat × Bencode.GoVal) → Option (List Nat) :=
  fun _ => some (List.replicate 20 0)

/-- A valid single-file info dictionary: one 16384-byte piece, one
declared 20-byte hash. -/
def sampleInfo : List (List Nat × Bencode.GoVal) :=
  [ (ascii ("name"), .str (ascii ("test.txt"))),
    (ascii ("piece length"), .int64 16384),
    (ascii ("pieces"), .str (List.replicate 20 0)),
    (ascii ("length"), .int64 16384) ]

/-- A torrent dictionary with the CORRECT key spelling `announce` and a
valid info dictionary. -/
def correctKeyTorrent : Bencode.GoVal :=
  .dict [ (ascii ("announce"), .str (ascii ("http://tracker.example.com/announce"))),
          (ascii ("info"), .dict sampleInfo) ]

/-- The same torrent dictionary under the MISSPELLED key `annouce` that
the source actually reads. -/
def misspelledKeyTorrent : Bencode.GoVal :=
  .dict [ (ascii ("annouce"), .str (ascii ("http://tracker.example.com/announce"))),
          (ascii ("info"), .dict sampleInfo) ]

/-- The descriptor `parse` produces for `misspelledKeyTorrent`. -/
def sampleParsed : Torrent.TorrentFile :=
  { announce := ascii ("http://tracker.example.com/announce"),
    annouceList := [], creationDate := 0, comment := [], createdBy := [],
    encoding := [],
    info := { pieceLength := 16384, pieces := List.replicate 20 0, priv := false,
              name := ascii ("test.txt"), length := 16384, files := [],
              isDirectory := false },
    infoHash := List.replicate 20 0, piecesHash := [List.replicate 20 0] }

/-- Claim C6 (refuted by the code, a code bug): the spec requires
`Parse` to read the primary tracker URL from the key `announce` (with
`announce-list` for the tiers), so a torrent dictionary carrying
`announce` and a valid info dictionary parses, and one lacking
`announce` fails with the missing-announce error.  The source reads the
misspelled key `annouce` instead: the correctly-keyed dictionary fails
with the missing-announce error, and only the misspelled dictionary
parses.  The repository's own `TestParse` uses the key `announce` and
expects success. -/
theorem parse_reads_misspelled_announce_key :
    Torrent.parse hashConst correctKeyTorrent =
      Except.error Torrent.ParseErr.missingAnnouce ∧
    Torrent.parse hashConst misspelledKeyTorrent = Except.ok sampleParsed := by
  refine ⟨rfl, rfl⟩

/-- The spec's multi-file fixture: name `test_dir`, files of 10000 and
20000 bytes (total 30000), piece length 16384, and THREE declared
20-byte piece hashes — inconsistent, since ⌈30000/16384⌉ = 2.  The
announce key is spelled the way the source demands so that parsing
reaches the piece-hash handling. -/
def inconsistentTorrent : Bencode.GoVal :=
  .dict [ (ascii ("annouce"), .str (ascii ("http://tracker.example.com/announce"))),
          (ascii ("info"), .dict
            [ (ascii ("name"), .str (ascii ("test_dir"))),
              (ascii ("piece length"), .int64 16384),
              (ascii ("pieces"), .str (List.replicate 60 0)),
              (ascii ("files"), .list
                [ .dict [ (ascii ("length"), .int64 10000),
                          (ascii ("path"), .list [.str (ascii ("file1.txt"))]) ],
                  .dict [ (ascii ("length"), .int64 20000),
                          (ascii ("path"), .list [.str (ascii ("subdir")),
                                                  .str (ascii ("file2.txt"))]) ] ]) ]) ]

/-- The descriptor `parse` produces for `inconsistentTorrent` (it is NOT
rejected). -/
def inconsistentParsed : Torrent.TorrentFile :=
  { announce := ascii ("http://tracker.example.com/announce"),
    annouceList := [], creationDate := 0, comment := [], createdBy := [],
    encoding := [],
    info := { pieceLength := 16384, pieces := List.replicate 60 0, priv := false,
              name := ascii ("test_dir"), length := 0,
              files := [ { length := 10000, path := [ascii ("file1.txt")] },
                         { length := 20000, path := [ascii ("subdir"),
                                                     ascii ("file2.txt")] } ],
              isDirectory := true },
    infoHash := List.replicate 20 0,
    piecesHash := [List.replicate 20 0, List.replicate 20 0, List.replicate 20 0] }

/-- Claim C7 (refuted by the code, a code bug): the spec requires
`Parse` to reject (DescriptorInvalid) a descriptor whose declared hash
count differs from `⌈total_length / piece_length⌉`; in particular the
30000-byte multi-file fixture with three declared hashes.  The source
performs no such check — `parsePieces` blindly slices the hash string —
so the fixture parses successfully with `NumPieces() = 3`, although the
consistent count is `⌈30000 / 16384⌉ = 2`. -/
theorem parse_accepts_inconsistent_piece_count :
    Torrent.parse hashConst inconsistentTorrent = Except.ok inconsistentParsed ∧
    Torrent.numPieces inconsistentParsed = 3 ∧
    Torrent.totalLength inconsistentParsed = 30000 ∧
    (Torrent.numPieces inconsistentParsed : Int) ≠
      (Torrent.totalLength inconsistentParsed +
        inconsistentParsed.info.pieceLength - 1) /
        inconsistentParsed.info.pieceLength := by
  refine ⟨rfl, by decide, by decide, by decide⟩

/-- A stand-in for `net.ParseIP` that accepts nothing (the C8 theorem
never reaches the peer-list branch). -/
def noIP : List Nat → Option (List Nat) := fun _ => Option.none

/-- Claim C8 (refuted by the code, a code bug): for a decoded tracker
response dictionary, a `failure reason` string must produce an error
carrying that message — which the source does — and an `interval` key
holding the decoder's `int64` integer must produce
`AnnounceResponse.Interval` equal to it.  The source asserts the
interval value to Go's `int` (`internalVal.(int)`), but the bencode
decoder only ever delivers `int64`, so the assertion fails and the
response `{"interval": 1800}` is rejected with the invalid-interval
error instead of yielding `Interval = 1800`.  The repository's own
`TestParseAnnounceResponse` expects `Interval = 1800` here. -/
theorem parseAnnounceResponse_interval_always_errors :
    Tracker.parseAnnounceResponseVal noIP
        (.dict [(ascii ("failure reason"), .str (ascii ("busy")))]) =
      Except.error (Tracker.AnnErr.trackerFailure (ascii ("busy"))) ∧
    Tracker.parseAnnounceResponseVal noIP
        (.dict [(ascii ("interval"), .int64 1800)]) =
      Except.error Tracker.AnnErr.invalidInterval := by
  refine ⟨rfl, rfl⟩


/-- A degenerate but representable descriptor: single-file mode with
declared length −1, piece length 2, and no declared piece hashes.  The
`length` field is an `int64` read from a bencode integer, so negative
values are reachable through `Parse` as well. -/
def degenerateDescriptor : Torrent.TorrentFile :=
  { announce := [], annouceList := [], creationDate := 0, comment := [],
    createdBy := [], encoding := [],
    info := { pieceLength := 2, pieces := [], priv := false, name := [],
              length := -1, files := [], isDirectory := false },
    infoHash := [], piecesHash := [] }

/-- Counterexample to claim C9 as stated: `degenerateDescriptor` has
piece length 2 > 0 and satisfies the invariant of the claim literally —
`0 · 2 = 0 ≥ −1 > −2 = (0 − 1) · 2` — yet the sum of `PieceSize(i)`
over its (zero) pieces is 0 while `TotalLength()` is −1. -/
theorem pieceSize_sum_counterexample :
    0 < degenerateDescriptor.info.pieceLength ∧
    (Torrent.numPieces degenerateDescriptor : Int) *
        degenerateDescriptor.info.pieceLength ≥
      Torrent.totalLength degenerateDescriptor ∧
    Torrent.totalLength degenerateDescriptor >
      ((Torrent.numPieces degenerateDescriptor : Int) - 1) *
        degenerateDescriptor.info.pieceLength ∧
    Torrent.sumPieceSizes degenerateDescriptor ≠
      Torrent.totalLength degenerateDescriptor := by
  refine ⟨by decide, by decide, by decide, by decide⟩

/-- Claim C9 as amended (adding the hypothesis that the total length is
nonnegative, which the counterexample above shows is necessary): for
every descriptor with `piece_length > 0`, nonnegative total length, and
`|pieces| · piece_length ≥ total_length > (|pieces| − 1) · piece_length`,
the sum of `PieceSize(i)` over `0 ≤ i < NumPieces()` equals
`TotalLength()`; each non-final piece has size `PieceLength`, and the
final piece has size `TotalLength() mod PieceLength`, or `PieceLength`
when that remainder is zero. -/
theorem pieceSize_sum_eq_totalLength (t : Torrent.TorrentFile)
    (hpl : 0 < t.info.pieceLength)
    (hnn : 0 ≤ Torrent.totalLength t)
    (hub : (Torrent.numPieces t : Int) * t.info.pieceLength ≥ Torrent.totalLength t)
    (hlb : Torrent.totalLength t >
      ((Torrent.numPieces t : Int) - 1) * t.info.pieceLength) :
    Torrent.sumPieceSizes t = Torrent.totalLength t ∧
    (∀ i : Nat, (i : Int) < (Torrent.numPieces t : Int) - 1 →
      Torrent.pieceSize t (i : Int) = t.info.pieceLength) ∧
    (0 < Torrent.numPieces t →
      Torrent.pieceSize t ((Torrent.numPieces t : Int) - 1) =
        if Torrent.totalLength t % t.info.pieceLength = 0 then t.info.pieceLength
        else Torrent.totalLength t % t.info.pieceLength) := by
  have hmid : ∀ i : Nat, (i : Int) < (Torrent.numPieces t : Int) - 1 →
      Torrent.pieceSize t (i : Int) = t.info.pieceLength := by
    intro i hi
    rw [Torrent.pieceSize, if_neg (by omega), if_pos hi]
  have hlast : 0 < Torrent.numPieces t →
      Torrent.pieceSize t ((Torrent.numPieces t : Int) - 1) =
        if Torrent.totalLength t % t.info.pieceLength = 0 then t.info.pieceLength
        else Torrent.totalLength t % t.info.pieceLength := by
    intro hn
    rw [Torrent.pieceSize, if_neg (by omega), if_neg (by omega),
      Int.tmod_eq_emod hnn (le_of_lt hpl)]
  refine ⟨?_, hmid, hlast⟩
  rcases Nat.eq_zero_or_pos (Torrent.numPieces t) with hz | hn
  · have htl : Torrent.totalLength t = 0 := by
      rw [hz] at hub
      simp only [Nat.cast_zero, zero_mul] at hub
      omega
    rw [Torrent.sumPieceSizes, hz, htl]
    rfl
  · -- split the range at the final piece
    obtain ⟨m, hm⟩ : ∃ m, Torrent.numPieces t = m + 1 :=
      ⟨Torrent.numPieces t - 1, by omega⟩
    have hmcast : ((m : Int)) = (Torrent.numPieces t : Int) - 1 := by
      rw [hm]; push_cast; ring
    have hsum : Torrent.sumPieceSizes t =
        ((List.range m).map (fun i : Nat => Torrent.pieceSize t (i : Int))).sum +
          Torrent.pieceSize t ((Torrent.numPieces t : Int) - 1) := by
      rw [Torrent.sumPieceSizes, hm, List.range_succ, List.map_append,
        List.sum_append]
      simp [hmcast]
    have hconst : ((List.range m).map (fun i : Nat => Torrent.pieceSize t (i : Int))).sum =
        (m : Int) * t.info.pieceLength := by
      rw [List.map_congr_left (fun i hi => hmid i (by
        rw [List.mem_range] at hi
        omega))]
      simp [List.sum_replicate, nsmul_eq_mul, List.map_const]
    -- the division and remainder of the total length by the piece length
    have hdiv : t.info.pieceLength * (Torrent.totalLength t / t.info.pieceLength) +
        Torrent.totalLength t % t.info.pieceLength = Torrent.totalLength t :=
      Int.ediv_add_emod _ _
    have hrlt : Torrent.totalLength t % t.info.pieceLength < t.info.pieceLength :=
      Int.emod_lt_of_pos _ hpl
    have hrnn : 0 ≤ Torrent.totalLength t % t.info.pieceLength :=
      Int.emod_nonneg _ (by omega)
    have hqlb : (Torrent.numPieces t : Int) - 1 ≤
        Torrent.totalLength t / t.info.pieceLength :=
      (Int.le_ediv_iff_mul_le hpl).mpr (le_of_lt hlb)
    have hkey : (if Torrent.totalLength t % t.info.pieceLength = 0
          then t.info.pieceLength
          else Torrent.totalLength t % t.info.pieceLength) =
        Torrent.totalLength t - ((Torrent.numPieces t : Int) - 1) *
          t.info.pieceLength := by
      by_cases hr : Torrent.totalLength t % t.info.pieceLength = 0
      · rw [if_pos hr]
        rw [hr, add_zero] at hdiv
        -- the total length is an exact multiple: the quotient is exactly n
        have hqub : Torrent.totalLength t / t.info.pieceLength ≤
            (Torrent.numPieces t : Int) := by
          by_contra hq
          push_neg at hq
          have := (mul_lt_mul_right hpl).mpr hq
          nlinarith [hdiv, hub]
        have hq : Torrent.totalLength t / t.info.pieceLength =
            (Torrent.numPieces t : Int) := by
          by_contra hq
          have hlt : Torrent.totalLength t / t.info.pieceLength ≤
              (Torrent.numPieces t : Int) - 1 := by omega
          have := (mul_le_mul_right hpl).mpr hlt
          nlinarith [hdiv, hlb]
        rw [hq] at hdiv
        nlinarith [hdiv]
      · rw [if_neg hr]
        -- a proper remainder: the quotient is exactly n − 1
        have hrpos : 0 < Torrent.totalLength t % t.info.pieceLength :=
          lt_of_le_of_ne hrnn (Ne.symm hr)
        have hqub : Torrent.totalLength t / t.info.pieceLength ≤
            (Torrent.numPieces t : Int) - 1 := by
          by_contra hq
          push_neg at hq
          have hq' : (Torrent.numPieces t : Int) ≤
              Torrent.totalLength t / t.info.pieceLength := by omega
          have := (mul_le_mul_right hpl).mpr hq'
          nlinarith [hdiv, hub, hrpos, this]
        have hq : Torrent.totalLength t / t.info.pieceLength =
            (Torrent.numPieces t : Int) - 1 := le_antisymm hqub hqlb
        rw [hq] at hdiv
        nlinarith [hdiv]
    rw [hsum, hconst, hlast hn, hkey, hmcast]
    ring

/-- Witness for the amended C9 at a concrete two-piece single-file
descriptor (total length 32768, piece length 16384, two declared
hashes). -/
def twoPieceDescriptor : Torrent.TorrentFile :=
  { announce := [], annouceList := [], creationDate := 0, comment := [],
    createdBy := [], encoding := [],
    info := { pieceLength := 16384, pieces := List.replicate 40 0, priv := false,
              name := [], length := 32768, files := [], isDirectory := false },
    infoHash := [], piecesHash := [List.replicate 20 0, List.replicate 20 0] }

/-- Witness for C9 (amended): the hypotheses hold for
`twoPieceDescriptor` and the sum of its piece sizes equals its total
length 32768. -/
theorem pieceSize_sum_eq_totalLength_witness :
    0 < twoPieceDescriptor.info.pieceLength ∧
    0 ≤ Torrent.totalLength twoPieceDescriptor ∧
    (Torrent.numPieces twoPieceDescriptor : Int) *
        twoPieceDescriptor.info.pieceLength ≥
      Torrent.totalLength twoPieceDescriptor ∧
    Torrent.totalLength twoPieceDescriptor >
      ((Torrent.numPieces twoPieceDescriptor : Int) - 1) *
        twoPieceDescriptor.info.pieceLength ∧
    Torrent.sumPieceSizes twoPieceDescriptor =
      Torrent.totalLength twoPieceDescriptor :=
  ⟨by decide, by decide, by decide, by decide,
    (pieceSize_sum_eq_totalLength twoPieceDescriptor (by decide) (by decide)
      (by decide) (by decide)).1⟩


end GoTorrent
